/-
Verification development for the puzzlePrint repository.

The definitions below are a shallow embedding of the geometry and snapping
code in src/utils/puzzleGeometry.js together with the transform-handling
callbacks of the viewer component (createPuzzlePieces, handleScatter,
handleAssemble, updatePieceTransform) and the store reducers.
JavaScript floating-point numbers are idealised as real numbers; the
JavaScript remainder operator is modelled by jsFmod; an absent object
property is modelled by an Option that is none.
-/
import Mathlib

noncomputable section

/-- Cut style of the interior grid lines, from the splitMode parameter. -/
inductive SplitMode
  | straight
  | wave
  | zigzag
  deriving DecidableEq

/-- JavaScript remainder x % y: x minus y times the quotient truncated toward
zero.  All call sites in the source have a nonnegative dividend and a positive
divisor, where this is x - y * floor (x / y). -/
def jsFmod (x y : ℝ) : ℝ :=
  if 0 ≤ x / y then x - y * (⌊x / y⌋ : ℤ) else x - y * (⌈x / y⌉ : ℤ)

/-- Lateral offset of a split line at parameter t, from splitOffset in
puzzleGeometry.js. -/
def splitOffset (t : ℝ) (mode : SplitMode) (amplitude : ℝ) : ℝ :=
  match mode with
  | .wave => Real.sin (t * Real.pi * 4) * amplitude
  | .zigzag =>
      let zt := jsFmod (t * 8) 1
      (if zt < 0.5 then zt * 2 else (1 - zt) * 2) * amplitude - amplitude * 0.5
  | .straight => 0

/-- Point sequence along a horizontal boundary line, from
generateHorizontalEdge; the loop runs i = 0 .. segments inclusive and the
offset is applied to the y coordinate. -/
def generateHorizontalEdge (xStart xEnd Y : ℝ) (splitMode : SplitMode) (amplitude : ℝ)
    (segments : ℕ) : List (ℝ × ℝ) :=
  (List.range (segments + 1)).map fun (i : ℕ) =>
    let t : ℝ := (i : ℝ) / (segments : ℝ)
    (xStart + (xEnd - xStart) * t, Y + splitOffset t splitMode amplitude)

/-- Point sequence along a vertical boundary line, from generateVerticalEdge;
the offset is applied to the x coordinate. -/
def generateVerticalEdge (X yStart yEnd : ℝ) (splitMode : SplitMode) (amplitude : ℝ)
    (segments : ℕ) : List (ℝ × ℝ) :=
  (List.range (segments + 1)).map fun (i : ℕ) =>
    let t : ℝ := (i : ℝ) / (segments : ℝ)
    (X + splitOffset t splitMode amplitude, yStart + (yEnd - yStart) * t)

/-- Generation parameters, from puzzleParams in the store. -/
structure PuzzleParams where
  width : ℝ
  height : ℝ
  depth : ℝ
  gridX : ℕ
  gridY : ℕ
  splitMode : SplitMode

/-- Width of one cell, width / gridX in createPieceShape. -/
def pieceW (p : PuzzleParams) : ℝ := p.width / (p.gridX : ℝ)

/-- Height of one cell, height / gridY in createPieceShape. -/
def pieceH (p : PuzzleParams) : ℝ := p.height / (p.gridY : ℝ)

/-- Offset amplitude: 8 percent of the shorter cell side, from
createPieceShape. -/
def amplitude (p : PuzzleParams) : ℝ := min (pieceW p) (pieceH p) * 0.08

/-- Left x of the cell at column col: -width/2 + col * pieceW. -/
def xLeft (p : PuzzleParams) (col : ℕ) : ℝ := -(p.width / 2) + (col : ℝ) * pieceW p

/-- Right x of the cell at column col. -/
def xRight (p : PuzzleParams) (col : ℕ) : ℝ := xLeft p col + pieceW p

/-- Bottom y of the cell at row row: -height/2 + row * pieceH. -/
def yBottom (p : PuzzleParams) (row : ℕ) : ℝ := -(p.height / 2) + (row : ℝ) * pieceH p

/-- Top y of the cell at row row. -/
def yTop (p : PuzzleParams) (row : ℕ) : ℝ := yBottom p row + pieceH p

/-- Recorded centerX of a piece: midpoint of the cell in x. -/
def centerX (p : PuzzleParams) (col : ℕ) : ℝ := (xLeft p col + xRight p col) / 2

/-- Recorded centerY of a piece: midpoint of the cell in y. -/
def centerY (p : PuzzleParams) (row : ℕ) : ℝ := (yBottom p row + yTop p row) / 2

/-- Bottom edge sample sequence of a piece, left to right, exactly as called
in createPieceShape for an interior bottom edge. -/
def bottomEdgePts (p : PuzzleParams) (col row : ℕ) : List (ℝ × ℝ) :=
  generateHorizontalEdge (xLeft p col) (xRight p col) (yBottom p row) p.splitMode (amplitude p) 30

/-- Right edge sample sequence of a piece, bottom to top. -/
def rightEdgePts (p : PuzzleParams) (col row : ℕ) : List (ℝ × ℝ) :=
  generateVerticalEdge (xRight p col) (yBottom p row) (yTop p row) p.splitMode (amplitude p) 30

/-- Top edge sample sequence of a piece, traversed right to left. -/
def topEdgePts (p : PuzzleParams) (col row : ℕ) : List (ℝ × ℝ) :=
  generateHorizontalEdge (xRight p col) (xLeft p col) (yTop p row) p.splitMode (amplitude p) 30

/-- Left edge sample sequence of a piece, traversed top to bottom. -/
def leftEdgePts (p : PuzzleParams) (col row : ℕ) : List (ℝ × ℝ) :=
  generateVerticalEdge (xLeft p col) (yTop p row) (yBottom p row) p.splitMode (amplitude p) 30

/-- Global-coordinate outline ring of the piece at (col, row), assembled
clockwise from the bottom-left corner exactly as in createPieceShape: border
sides are straight corner points, interior sides are sampled edges with the
duplicated joint points sliced off. -/
def outlinePts (p : PuzzleParams) (col row : ℕ) : List (ℝ × ℝ) :=
  (if row = 0 then [(xLeft p col, yBottom p row), (xRight p col, yBottom p row)]
   else bottomEdgePts p col row) ++
  (if col = p.gridX - 1 then [(xRight p col, yTop p row)]
   else (rightEdgePts p col row).drop 1) ++
  (if row = p.gridY - 1 then [(xLeft p col, yTop p row)]
   else (topEdgePts p col row).drop 1) ++
  (if col = 0 then []
   else ((leftEdgePts p col row).drop 1).dropLast)

/-- Result of createPieceShape: the ring translated into the local frame plus
the recorded center. -/
structure PieceShape where
  localPts : List (ℝ × ℝ)
  centerX : ℝ
  centerY : ℝ

/-- Shape construction for the piece at (col, row), from createPieceShape:
every outline point is translated by the recorded cell center. -/
def createPieceShape (p : PuzzleParams) (col row : ℕ) : PieceShape :=
  { localPts := (outlinePts p col row).map fun q => (q.1 - centerX p col, q.2 - centerY p row)
    centerX := centerX p col
    centerY := centerY p row }

/-- Neighbor indices of a piece; -1 is the border sentinel, as in
generateAllPieces. -/
structure Neighbors where
  left : ℤ
  right : ℤ
  bottom : ℤ
  top : ℤ
  deriving DecidableEq

/-- Adjacency record computed inside the generateAllPieces loop. -/
def pieceNeighbors (gridX gridY : ℕ) (row col : ℕ) : Neighbors :=
  { left := if 0 < col then ((row * gridX + (col - 1) : ℕ) : ℤ) else -1
    right := if col < gridX - 1 then ((row * gridX + (col + 1) : ℕ) : ℤ) else -1
    bottom := if 0 < row then (((row - 1) * gridX + col : ℕ) : ℤ) else -1
    top := if row < gridY - 1 then (((row + 1) * gridX + col : ℕ) : ℤ) else -1 }

/-- Per-piece record produced by generateAllPieces (the geometry itself is
owned by the render layer and not used by any claim). -/
structure PieceInfo where
  col : ℕ
  row : ℕ
  index : ℕ
  centerX : ℝ
  centerY : ℝ
  neighbors : Neighbors

/-- Cell coordinates in loop emission order: outer loop over rows, inner loop
over columns, as in generateAllPieces. -/
def cellList (gridX gridY : ℕ) : List (ℕ × ℕ) :=
  (List.range gridY).flatMap fun row => (List.range gridX).map fun col => (row, col)

/-- All piece records, from generateAllPieces; the enum position models the
index counter that is incremented once per emitted piece. -/
def generateAllPieces (p : PuzzleParams) : List PieceInfo :=
  (cellList p.gridX p.gridY).enum.map fun ic =>
    { col := ic.2.2
      row := ic.2.1
      index := ic.1
      centerX := (createPieceShape p ic.2.2 ic.2.1).centerX
      centerY := (createPieceShape p ic.2.2 ic.2.1).centerY
      neighbors := pieceNeighbors p.gridX p.gridY ic.2.1 ic.2.2 }

/-- Runtime pose record stored by the application.  Every write site
(createPuzzlePieces initialisation, handleScatter, handleAssemble and the
updatePieceTransform reducer) stores exactly the fields x, y, z, rotation;
in particular no index field is ever stored. -/
structure PieceTransform where
  x : ℝ
  y : ℝ
  z : ℝ
  rotation : ℝ

/-- Assembled-state transforms: every piece at its recorded center, z at half
depth, rotation 0.  This is the initialisation in createPuzzlePieces and also
the array built by handleAssemble. -/
def initialTransforms (infos : List PieceInfo) (depth : ℝ) : List PieceTransform :=
  infos.map fun piece => { x := piece.centerX, y := piece.centerY, z := depth / 2, rotation := 0 }

/-- Partial update payload of the updatePieceTransform reducer: any subset of
the four pose fields. -/
structure TransformPatch where
  x : Option ℝ
  y : Option ℝ
  z : Option ℝ
  rotation : Option ℝ

/-- Spread merge of a patch over an existing transform record. -/
def mergeTransform (t : PieceTransform) (patch : TransformPatch) : PieceTransform :=
  { x := patch.x.getD t.x
    y := patch.y.getD t.y
    z := patch.z.getD t.z
    rotation := patch.rotation.getD t.rotation }

/-- The updatePieceTransform reducer: merge the patch into the entry when it
exists, otherwise leave the array unchanged. -/
def updatePieceTransform (transforms : List PieceTransform) (index : ℕ)
    (patch : TransformPatch) : List PieceTransform :=
  match transforms[index]? with
  | some t => transforms.set index (mergeTransform t patch)
  | none => transforms

/-- Edge tag used by the snap engine. -/
inductive SnapEdge
  | left
  | right
  | bottom
  | top
  deriving DecidableEq

/-- Argument record of checkSnapPossibility.  The function reads x, y,
rotation and index of each argument; index is an Option because the records
the application passes in have no such property (modelled by none). -/
structure SnapPiece where
  x : ℝ
  y : ℝ
  rotation : ℝ
  index : Option ℕ

/-- Result record of checkSnapPossibility.  distance is Infinity on a
rotation mismatch, modelled by the top element; the target triple
(targetX, targetY, targetRotation) is present only in the success case. -/
structure SnapResult where
  canSnap : Bool
  distance : WithTop ℝ
  edge : SnapEdge
  target : Option (ℝ × ℝ × ℝ)

/-- The neighbor test chain of checkSnapPossibility: the first of
left, right, bottom, top whose stored index equals the index of the second
piece, if any. -/
def edgeOf (nb : Neighbors) (idx2 : ℕ) : Option SnapEdge :=
  if nb.left = (idx2 : ℤ) then some .left
  else if nb.right = (idx2 : ℤ) then some .right
  else if nb.bottom = (idx2 : ℤ) then some .bottom
  else if nb.top = (idx2 : ℤ) then some .top
  else none

/-- Snap test between two pieces, from checkSnapPossibility.  The info lookup
piecesInfo[piece.index] yields undefined (none) when the index property is
absent or out of range, and the function then returns null.  The expression
piece2.rotation || 0 of the source is the identity on real rotations. -/
def checkSnapPossibility (piece1 piece2 : SnapPiece) (piecesInfo : List PieceInfo)
    (threshold : ℝ) : Option SnapResult :=
  match piece1.index.bind (fun k => piecesInfo[k]?), piece2.index with
  | some info1, some idx2 =>
    match piecesInfo[idx2]? with
    | none => none
    | some info2 =>
      match edgeOf info1.neighbors idx2 with
      | none => none
      | some edge =>
        let originalDx := info1.centerX - info2.centerX
        let originalDy := info1.centerY - info2.centerY
        let rotationDiff := jsFmod |piece1.rotation - piece2.rotation| (2 * Real.pi)
        if rotationDiff < 0.1 ∨ |rotationDiff - 2 * Real.pi| < 0.1 then
          let currentDx := piece1.x - piece2.x
          let currentDy := piece1.y - piece2.y
          let angle := piece2.rotation
          let rotatedDx := originalDx * Real.cos angle - originalDy * Real.sin angle
          let rotatedDy := originalDx * Real.sin angle + originalDy * Real.cos angle
          let diffX := currentDx - rotatedDx
          let diffY := currentDy - rotatedDy
          let distance := Real.sqrt (diffX * diffX + diffY * diffY)
          if distance ≤ threshold then
            some { canSnap := true
                   distance := (distance : WithTop ℝ)
                   edge := edge
                   target := some (piece2.x + rotatedDx, piece2.y + rotatedDy, piece2.rotation) }
          else
            some { canSnap := false
                   distance := (distance : WithTop ℝ)
                   edge := edge
                   target := none }
        else
          some { canSnap := false, distance := ⊤, edge := edge, target := none }
  | _, _ => none

/-- Candidate record pushed by findSnapTargets.  The object spread puts the
result fields after the entry fields, so the edge stored here is the edge
computed by checkSnapPossibility. -/
structure SnapTarget where
  neighborIndex : ℕ
  canSnap : Bool
  distance : WithTop ℝ
  edge : SnapEdge
  target : Option (ℝ × ℝ × ℝ)

/-- JavaScript array indexing by a signed integer: defined only for
nonnegative in-range positions. -/
def listAtZ (l : List PieceTransform) (i : ℤ) : Option PieceTransform :=
  if 0 ≤ i then l[i.toNat]? else none

/-- View of a stored transform as an argument to checkSnapPossibility: the
record has no index property, so the index read inside is undefined. -/
def toSnapArg (t : PieceTransform) : SnapPiece :=
  { x := t.x, y := t.y, rotation := t.rotation, index := none }

/-- Entries of the neighbors object in insertion order, as iterated by
Object.entries in findSnapTargets. -/
def neighborEntries (nb : Neighbors) : List (SnapEdge × ℤ) :=
  [(.left, nb.left), (.right, nb.right), (.bottom, nb.bottom), (.top, nb.top)]

/-- Candidates contributed by one neighbors entry in the findSnapTargets
loop: skip the -1 sentinel, skip a missing neighbor transform, keep a result
only when it exists and its distance is finite. -/
def snapTargetOf (piece : PieceTransform) (transforms : List PieceTransform)
    (piecesInfo : List PieceInfo) (threshold : ℝ) (en : SnapEdge × ℤ) : List SnapTarget :=
  if en.2 = -1 then []
  else
    match listAtZ transforms en.2 with
    | none => []
    | some neighborTransform =>
      match checkSnapPossibility (toSnapArg piece) (toSnapArg neighborTransform)
          piecesInfo threshold with
      | none => []
      | some result =>
        if result.distance < ⊤ then
          [{ neighborIndex := en.2.toNat
             canSnap := result.canSnap
             distance := result.distance
             edge := result.edge
             target := result.target }]
        else []

/-- Snap candidate search for one piece, from findSnapTargets: missing piece
or info gives the empty list, otherwise the four neighbor entries are
scanned in order and the kept candidates are sorted by ascending distance. -/
def findSnapTargets (pieceIndex : ℕ) (transforms : List PieceTransform)
    (piecesInfo : List PieceInfo) (threshold : ℝ) : List SnapTarget :=
  match transforms[pieceIndex]?, piecesInfo[pieceIndex]? with
  | some piece, some pieceInfo =>
    ((neighborEntries pieceInfo.neighbors).flatMap
        (snapTargetOf piece transforms piecesInfo threshold)).mergeSort
      fun a b => decide (a.distance ≤ b.distance)
  | _, _ => []

/-- Interaction state touched by the scatter and assemble commands. -/
structure GameState where
  pieceTransforms : List PieceTransform
  puzzleScattered : Bool
  selectedPieceIndex : ℤ

/-- The handleScatter callback.  rand i packs the three Math.random draws
made for piece i, in call order: angle jitter, radius factor, rotation. -/
def handleScatter (piecesInfo : List PieceInfo) (p : PuzzleParams)
    (rand : ℕ → ℝ × ℝ × ℝ) (st : GameState) : GameState :=
  if piecesInfo.length = 0 then st
  else
    let scatterRadius := max p.width p.height * 1.5
    let newTransforms := piecesInfo.enum.map fun ip =>
      let u := rand ip.1
      let angle := ((ip.1 : ℝ) / (piecesInfo.length : ℝ)) * Real.pi * 2 + u.1 * 0.5
      let radius := scatterRadius * (0.5 + u.2.1 * 0.5)
      { x := Real.cos angle * radius
        y := Real.sin angle * radius
        z := p.depth / 2
        rotation := u.2.2 * Real.pi * 2 : PieceTransform }
    { pieceTransforms := newTransforms, puzzleScattered := true, selectedPieceIndex := -1 }

/-- Successive vertex pairs of a closed polygon, wrapping the last vertex to
the first.  This and the next definitions follow the wording of the spec
(the centroid of the outline polygon) and are compared against the code. -/
def specCyclicPairs (pts : List (ℝ × ℝ)) : List ((ℝ × ℝ) × (ℝ × ℝ)) :=
  pts.zip (pts.drop 1 ++ pts.take 1)

/-- Twice the signed area of a polygon (shoelace sum). -/
def specShoelace (pts : List (ℝ × ℝ)) : ℝ :=
  (specCyclicPairs pts).foldr (fun q s => s + (q.1.1 * q.2.2 - q.2.1 * q.1.2)) 0

/-- Numerator of the x coordinate of the polygon centroid. -/
def specCentroidNumX (pts : List (ℝ × ℝ)) : ℝ :=
  (specCyclicPairs pts).foldr (fun q s => s + (q.1.1 + q.2.1) * (q.1.1 * q.2.2 - q.2.1 * q.1.2)) 0

/-- Numerator of the y coordinate of the polygon centroid. -/
def specCentroidNumY (pts : List (ℝ × ℝ)) : ℝ :=
  (specCyclicPairs pts).foldr (fun q s => s + (q.1.2 + q.2.2) * (q.1.1 * q.2.2 - q.2.1 * q.1.2)) 0

/-- Centroid of a polygon given by its vertex ring, by the standard shoelace
formula; the formula is independent of orientation. -/
def specCentroid (pts : List (ℝ × ℝ)) : ℝ × ℝ :=
  (specCentroidNumX pts / (3 * specShoelace pts),
   specCentroidNumY pts / (3 * specShoelace pts))

/-- Concrete parameter set used for witnesses: a 2 by 2 straight-cut puzzle,
100 by 100 by 10. -/
def demoParams : PuzzleParams :=
  { width := 100, height := 100, depth := 10, gridX := 2, gridY := 2, splitMode := .straight }

/-- Concrete parameter set for the centroid counterexample: 2 by 1, zigzag. -/
def zigParams : PuzzleParams :=
  { width := 100, height := 100, depth := 10, gridX := 2, gridY := 1, splitMode := .zigzag }

/-- Concrete parameter set matching zigParams but with straight cuts. -/
def straightParams : PuzzleParams :=
  { width := 100, height := 100, depth := 10, gridX := 2, gridY := 1, splitMode := .straight }

/-- Left piece of a 2 by 1 grid of width 100: the record generateAllPieces
produces for it, written out. -/
def cexInfo0 : PieceInfo :=
  { col := 0, row := 0, index := 0, centerX := -25, centerY := 0
    neighbors := { left := -1, right := 1, bottom := -1, top := -1 } }

/-- Right piece of a 2 by 1 grid of width 100. -/
def cexInfo1 : PieceInfo :=
  { col := 1, row := 0, index := 1, centerX := 25, centerY := 0
    neighbors := { left := 0, right := -1, bottom := -1, top := -1 } }

/-- Two-piece info list used by concrete snap-engine statements. -/
def cexInfos : List PieceInfo := [cexInfo0, cexInfo1]

/-- Evaluation of jsFmod for a nonnegative dividend and positive divisor. -/
lemma jsFmod_nonneg_pos (x y : ℝ) (hx : 0 ≤ x) (hy : 0 < y) :
    jsFmod x y = x - y * ⌊x / y⌋ := by
  rw [jsFmod, if_pos (div_nonneg hx hy.le)]

/-- Remainder by 1 of a nonnegative real is its fractional part. -/
lemma jsFmod_one (x : ℝ) (hx : 0 ≤ x) : jsFmod x 1 = Int.fract x := by
  rw [jsFmod, div_one, if_pos hx, Int.fract]
  simp

/-- When the first argument carries no index property, the info lookup is
undefined and checkSnapPossibility returns null. -/
lemma checkSnap_noIndex (p1 p2 : SnapPiece) (infos : List PieceInfo) (threshold : ℝ)
    (h : p1.index = none) : checkSnapPossibility p1 p2 infos threshold = none := by
  cases h2 : p2.index <;> simp [checkSnapPossibility, h, h2]

/-- Every neighbors entry contributes nothing in the findSnapTargets loop,
because the piece argument passed on has no index property. -/
lemma snapTargetOf_eq_nil (piece : PieceTransform) (transforms : List PieceTransform)
    (piecesInfo : List PieceInfo) (threshold : ℝ) (en : SnapEdge × ℤ) :
    snapTargetOf piece transforms piecesInfo threshold en = [] := by
  unfold snapTargetOf
  split_ifs with h
  · rfl
  · cases h2 : listAtZ transforms en.2 with
    | none => rfl
    | some nt =>
        simp [checkSnap_noIndex (toSnapArg piece) (toSnapArg nt) piecesInfo threshold rfl]

/-- The candidate list of findSnapTargets is empty on every input built from
application transform records. -/
lemma findSnapTargets_nil (pieceIndex : ℕ) (transforms : List PieceTransform)
    (piecesInfo : List PieceInfo) (threshold : ℝ) :
    findSnapTargets pieceIndex transforms piecesInfo threshold = [] := by
  unfold findSnapTargets
  cases h1 : transforms[pieceIndex]? with
  | none => rfl
  | some piece =>
      cases h2 : piecesInfo[pieceIndex]? with
      | none => rfl
      | some info => simp [neighborEntries, snapTargetOf_eq_nil]

/-- C1: with every piece posed at its assembled centroid (the initialisation
and assemble transforms) and any nonnegative threshold, findSnapTargets is
claimed to return a canSnap candidate at distance 0 for every interior
adjacency of the piece; on the concrete 2 by 2 assembled instance the code
instead returns the empty list, because the stored transforms carry no index
property and every info lookup inside checkSnapPossibility fails. -/
theorem C1_assembled_returns_empty :
    findSnapTargets 0 (initialTransforms (generateAllPieces demoParams) demoParams.depth)
      (generateAllPieces demoParams) 5 = [] :=
  findSnapTargets_nil 0 _ _ 5

/-- C2: every transform record the application stores has exactly the pose
fields and no index, so findSnapTargets returns the empty list for every
piece index, every stored transform array, every info array and every
threshold. -/
theorem C2_findSnapTargets_always_empty (pieceIndex : ℕ) (transforms : List PieceTransform)
    (piecesInfo : List PieceInfo) (threshold : ℝ) :
    findSnapTargets pieceIndex transforms piecesInfo threshold = [] :=
  findSnapTargets_nil pieceIndex transforms piecesInfo threshold

/-- C9: the boundary offset is 0 for straight, sin(t*4*pi)*amplitude for
wave, and for zigzag a triangular wave of period 1/8 whose value stays within
half an amplitude of the nominal line. -/
theorem C9_offset_shapes (t a : ℝ) (ht0 : 0 ≤ t) (ht1 : t ≤ 1) (ha : 0 ≤ a) :
    splitOffset t .straight a = 0 ∧
    splitOffset t .wave a = Real.sin (t * (4 * Real.pi)) * a ∧
    -(a / 2) ≤ splitOffset t .zigzag a ∧ splitOffset t .zigzag a ≤ a / 2 ∧
    (∀ s : ℝ, 0 ≤ s → splitOffset (s + 1 / 8) .zigzag a = splitOffset s .zigzag a) := by
  have key : -(a / 2) ≤ splitOffset t .zigzag a ∧ splitOffset t .zigzag a ≤ a / 2 := by
    simp only [splitOffset]
    rw [jsFmod_one (t * 8) (by linarith)]
    set z := Int.fract (t * 8) with hzdef
    have hz0 : 0 ≤ z := Int.fract_nonneg _
    have hz1 : z < 1 := Int.fract_lt_one _
    split_ifs with h
    · constructor <;> nlinarith
    · constructor <;> nlinarith
  refine ⟨rfl, ?_, key.1, key.2, ?_⟩
  · simp only [splitOffset]
    rw [show t * Real.pi * 4 = t * (4 * Real.pi) by ring]
  · intro s hs
    simp only [splitOffset]
    rw [jsFmod_one (s * 8) (by linarith), jsFmod_one ((s + 1 / 8) * 8) (by linarith)]
    have harg : (s + 1 / 8) * 8 = s * 8 + ((1 : ℤ) : ℝ) := by push_cast; ring
    rw [harg, Int.fract_add_int]

/-- Witness for C9 at t = 1/2, a = 2. -/
theorem C9_offset_shapes_witness :
    (0 : ℝ) ≤ 1 / 2 ∧ (1 / 2 : ℝ) ≤ 1 ∧ (0 : ℝ) ≤ 2 ∧
    (splitOffset (1 / 2) .straight 2 = 0 ∧
     splitOffset (1 / 2) .wave 2 = Real.sin ((1 / 2) * (4 * Real.pi)) * 2 ∧
     -((2 : ℝ) / 2) ≤ splitOffset (1 / 2) .zigzag 2 ∧ splitOffset (1 / 2) .zigzag 2 ≤ 2 / 2 ∧
     (∀ s : ℝ, 0 ≤ s → splitOffset (s + 1 / 8) .zigzag 2 = splitOffset s .zigzag 2)) :=
  ⟨by norm_num, by norm_num, by norm_num,
   C9_offset_shapes (1 / 2) 2 (by norm_num) (by norm_num) (by norm_num)⟩

/-- Remainder of x by a larger positive modulus is x itself. -/
lemma jsFmod_self_of_lt (x y : ℝ) (hx : 0 ≤ x) (hxy : x < y) : jsFmod x y = x := by
  have hy : 0 < y := lt_of_le_of_lt hx hxy
  rw [jsFmod_nonneg_pos x y hx hy]
  have hfl : ⌊x / y⌋ = 0 := by
    rw [Int.floor_eq_zero_iff, Set.mem_Ico]
    exact ⟨div_nonneg hx hy.le, by rw [div_lt_one hy]; exact hxy⟩
  rw [hfl]
  simp

/-- Unfolding of checkSnapPossibility along a successful lookup and adjacency
path: what remains is the rotation gate and then the distance test. -/
lemma checkSnap_unfold (piecesInfo : List PieceInfo) (p1 p2 : SnapPiece) (threshold : ℝ)
    (i2 : ℕ) (info1 info2 : PieceInfo) (e : SnapEdge)
    (h1 : p1.index.bind (fun k => piecesInfo[k]?) = some info1)
    (h2 : p2.index = some i2)
    (g2 : piecesInfo[i2]? = some info2)
    (he : edgeOf info1.neighbors i2 = some e) :
    checkSnapPossibility p1 p2 piecesInfo threshold =
      (if jsFmod |p1.rotation - p2.rotation| (2 * Real.pi) < 0.1 ∨
          |jsFmod |p1.rotation - p2.rotation| (2 * Real.pi) - 2 * Real.pi| < 0.1 then
        (if Real.sqrt
              (((p1.x - p2.x) -
                  ((info1.centerX - info2.centerX) * Real.cos p2.rotation -
                    (info1.centerY - info2.centerY) * Real.sin p2.rotation)) *
                ((p1.x - p2.x) -
                  ((info1.centerX - info2.centerX) * Real.cos p2.rotation -
                    (info1.centerY - info2.centerY) * Real.sin p2.rotation)) +
              ((p1.y - p2.y) -
                  ((info1.centerX - info2.centerX) * Real.sin p2.rotation +
                    (info1.centerY - info2.centerY) * Real.cos p2.rotation)) *
                ((p1.y - p2.y) -
                  ((info1.centerX - info2.centerX) * Real.sin p2.rotation +
                    (info1.centerY - info2.centerY) * Real.cos p2.rotation))) ≤ threshold
          then
          some { canSnap := true
                 distance := (Real.sqrt
                   (((p1.x - p2.x) -
                       ((info1.centerX - info2.centerX) * Real.cos p2.rotation -
                         (info1.centerY - info2.centerY) * Real.sin p2.rotation)) *
                     ((p1.x - p2.x) -
                       ((info1.centerX - info2.centerX) * Real.cos p2.rotation -
                         (info1.centerY - info2.centerY) * Real.sin p2.rotation)) +
                   ((p1.y - p2.y) -
                       ((info1.centerX - info2.centerX) * Real.sin p2.rotation +
                         (info1.centerY - info2.centerY) * Real.cos p2.rotation)) *
                     ((p1.y - p2.y) -
                       ((info1.centerX - info2.centerX) * Real.sin p2.rotation +
                         (info1.centerY - info2.centerY) * Real.cos p2.rotation))) : WithTop ℝ)
                 edge := e
                 target := some
                   (p2.x + ((info1.centerX - info2.centerX) * Real.cos p2.rotation -
                      (info1.centerY - info2.centerY) * Real.sin p2.rotation),
                    p2.y + ((info1.centerX - info2.centerX) * Real.sin p2.rotation +
                      (info1.centerY - info2.centerY) * Real.cos p2.rotation),
                    p2.rotation) }
          else
          some { canSnap := false
                 distance := (Real.sqrt
                   (((p1.x - p2.x) -
                       ((info1.centerX - info2.centerX) * Real.cos p2.rotation -
                         (info1.centerY - info2.centerY) * Real.sin p2.rotation)) *
                     ((p1.x - p2.x) -
                       ((info1.centerX - info2.centerX) * Real.cos p2.rotation -
                         (info1.centerY - info2.centerY) * Real.sin p2.rotation)) +
                   ((p1.y - p2.y) -
                       ((info1.centerX - info2.centerX) * Real.sin p2.rotation +
                         (info1.centerY - info2.centerY) * Real.cos p2.rotation)) *
                     ((p1.y - p2.y) -
                       ((info1.centerX - info2.centerX) * Real.sin p2.rotation +
                         (info1.centerY - info2.centerY) * Real.cos p2.rotation))) : WithTop ℝ)
                 edge := e
                 target := none })
      else some { canSnap := false, distance := ⊤, edge := e, target := none }) := by
  simp only [checkSnapPossibility, h1, h2, g2, he]

/-- Moving piece of the C3 counterexample: rotation exactly 0.1 rad. -/
def cexMoving : SnapPiece := { x := 0, y := 0, rotation := 0.1, index := some 0 }

/-- Neighbor piece of the C3 counterexample: rotation 0. -/
def cexNeighbor : SnapPiece := { x := 0, y := 0, rotation := 0, index := some 1 }

/-- C3 counterexample: at a rotation difference of exactly 0.1 rad the code
rejects (canSnap false, infinite distance) although 0.1 is not farther than
0.1 rad from 0, so the claimed characterisation fails at this input. -/
theorem C3_boundary_counterexample :
    checkSnapPossibility cexMoving cexNeighbor cexInfos 1000
      = some { canSnap := false, distance := ⊤, edge := .right, target := none } ∧
    ¬ (0.1 < jsFmod |(0.1 : ℝ) - 0| (2 * Real.pi) ∧
       0.1 < |jsFmod |(0.1 : ℝ) - 0| (2 * Real.pi) - 2 * Real.pi|) := by
  have hpi := Real.pi_gt_three
  have hfmod : jsFmod |(0.1 : ℝ) - 0| (2 * Real.pi) = 0.1 := by
    rw [show |(0.1 : ℝ) - 0| = 0.1 by norm_num]
    exact jsFmod_self_of_lt 0.1 (2 * Real.pi) (by norm_num) (by linarith)
  constructor
  · have hgate : ¬ (jsFmod |cexMoving.rotation - cexNeighbor.rotation| (2 * Real.pi) < 0.1 ∨
        |jsFmod |cexMoving.rotation - cexNeighbor.rotation| (2 * Real.pi) - 2 * Real.pi|
          < 0.1) := by
      have hr : |cexMoving.rotation - cexNeighbor.rotation| = |(0.1 : ℝ) - 0| := rfl
      rw [hr, hfmod]
      push_neg
      exact ⟨le_refl _, by rw [abs_of_nonpos (by linarith)]; linarith⟩
    rw [checkSnap_unfold cexInfos cexMoving cexNeighbor 1000 1 cexInfo0 cexInfo1 .right
        rfl rfl rfl rfl, if_neg hgate]
  · intro hcon
    rw [hfmod] at hcon
    exact lt_irrefl (0.1 : ℝ) hcon.1

/-- C3 as amended: along the adjacency path, checkSnapPossibility returns the
canSnap-false, infinite-distance record exactly when the rotation difference
mod 2 pi is at least 0.1 rad away from both 0 and 2 pi (the boundary value
0.1 itself is rejected); in particular a rotation difference of pi/2 or
3 pi/2 mod 2 pi never yields canSnap true. -/
theorem C3_rotation_gate (piecesInfo : List PieceInfo) (p1 p2 : SnapPiece) (threshold : ℝ)
    (i2 : ℕ) (info1 info2 : PieceInfo) (e : SnapEdge)
    (h1 : p1.index.bind (fun k => piecesInfo[k]?) = some info1)
    (h2 : p2.index = some i2)
    (g2 : piecesInfo[i2]? = some info2)
    (he : edgeOf info1.neighbors i2 = some e) :
    (checkSnapPossibility p1 p2 piecesInfo threshold
        = some { canSnap := false, distance := ⊤, edge := e, target := none }
      ↔ (0.1 ≤ jsFmod |p1.rotation - p2.rotation| (2 * Real.pi) ∧
         0.1 ≤ |jsFmod |p1.rotation - p2.rotation| (2 * Real.pi) - 2 * Real.pi|)) ∧
    ((jsFmod |p1.rotation - p2.rotation| (2 * Real.pi) = Real.pi / 2 ∨
      jsFmod |p1.rotation - p2.rotation| (2 * Real.pi) = 3 * Real.pi / 2) →
      ∀ r : SnapResult, checkSnapPossibility p1 p2 piecesInfo threshold = some r →
        r.canSnap = false) := by
  have hpi := Real.pi_gt_three
  have hstep := checkSnap_unfold piecesInfo p1 p2 threshold i2 info1 info2 e h1 h2 g2 he
  constructor
  · rw [hstep]
    constructor
    · intro hres
      by_contra hnot
      have hcond : jsFmod |p1.rotation - p2.rotation| (2 * Real.pi) < 0.1 ∨
          |jsFmod |p1.rotation - p2.rotation| (2 * Real.pi) - 2 * Real.pi| < 0.1 := by
        push_neg at hnot
        rcases lt_or_le (jsFmod |p1.rotation - p2.rotation| (2 * Real.pi)) 0.1 with h | h
        · exact Or.inl h
        · exact Or.inr (hnot h)
      rw [if_pos hcond] at hres
      split_ifs at hres with hd
      · simp [SnapResult.mk.injEq] at hres
      · simp [SnapResult.mk.injEq] at hres
    · intro hge
      rw [if_neg ?hc]
      case hc =>
        push_neg
        exact hge
  · intro hrot r hr
    have hcond : ¬ (jsFmod |p1.rotation - p2.rotation| (2 * Real.pi) < 0.1 ∨
        |jsFmod |p1.rotation - p2.rotation| (2 * Real.pi) - 2 * Real.pi| < 0.1) := by
      push_neg
      rcases hrot with h | h <;> rw [h]
      · constructor
        · linarith
        · rw [abs_of_nonpos (by linarith)]
          linarith
      · constructor
        · linarith
        · rw [abs_of_nonpos (by linarith)]
          linarith
    rw [hstep, if_neg hcond] at hr
    have hinj := Option.some.inj hr
    rw [← hinj]

/-- Witness for the amended C3 at a rotation difference of pi/2 between the
two adjacent pieces of a concrete 2 by 1 layout. -/
theorem C3_rotation_gate_witness :
    (checkSnapPossibility { x := 0, y := 0, rotation := Real.pi / 2, index := some 0 }
        { x := 0, y := 0, rotation := 0, index := some 1 } cexInfos 5
        = some { canSnap := false, distance := ⊤, edge := .right, target := none }
      ↔ (0.1 ≤ jsFmod |Real.pi / 2 - 0| (2 * Real.pi) ∧
         0.1 ≤ |jsFmod |Real.pi / 2 - 0| (2 * Real.pi) - 2 * Real.pi|)) ∧
    ((jsFmod |Real.pi / 2 - 0| (2 * Real.pi) = Real.pi / 2 ∨
      jsFmod |Real.pi / 2 - 0| (2 * Real.pi) = 3 * Real.pi / 2) →
      ∀ r : SnapResult,
        checkSnapPossibility { x := 0, y := 0, rotation := Real.pi / 2, index := some 0 }
          { x := 0, y := 0, rotation := 0, index := some 1 } cexInfos 5 = some r →
        r.canSnap = false) :=
  C3_rotation_gate cexInfos
    { x := 0, y := 0, rotation := Real.pi / 2, index := some 0 }
    { x := 0, y := 0, rotation := 0, index := some 1 } 5 1 cexInfo0 cexInfo1 .right
    rfl rfl rfl rfl

/-- C4: for adjacent pieces with valid indices and matching rotations, the
distance is the Euclidean norm of the difference between the current relative
offset and the assembled relative offset rotated by the neighbor rotation;
canSnap is the comparison of that distance with the threshold, and on success
the target pose is the neighbor pose plus the rotated offset with the
neighbor rotation inherited exactly. -/
theorem C4_distance_and_target (piecesInfo : List PieceInfo) (p1 p2 : SnapPiece)
    (threshold : ℝ) (i2 : ℕ) (info1 info2 : PieceInfo) (e : SnapEdge)
    (h1 : p1.index.bind (fun k => piecesInfo[k]?) = some info1)
    (h2 : p2.index = some i2)
    (g2 : piecesInfo[i2]? = some info2)
    (he : edgeOf info1.neighbors i2 = some e)
    (hrot : jsFmod |p1.rotation - p2.rotation| (2 * Real.pi) < 0.1 ∨
            |jsFmod |p1.rotation - p2.rotation| (2 * Real.pi) - 2 * Real.pi| < 0.1) :
    checkSnapPossibility p1 p2 piecesInfo threshold =
      (let rdx := (info1.centerX - info2.centerX) * Real.cos p2.rotation -
        (info1.centerY - info2.centerY) * Real.sin p2.rotation
      let rdy := (info1.centerX - info2.centerX) * Real.sin p2.rotation +
        (info1.centerY - info2.centerY) * Real.cos p2.rotation
      let d := Real.sqrt (((p1.x - p2.x) - rdx) ^ 2 + ((p1.y - p2.y) - rdy) ^ 2)
      if d ≤ threshold then
        some { canSnap := true, distance := (d : WithTop ℝ), edge := e,
               target := some (p2.x + rdx, p2.y + rdy, p2.rotation) }
      else
        some { canSnap := false, distance := (d : WithTop ℝ), edge := e, target := none }) := by
  rw [checkSnap_unfold piecesInfo p1 p2 threshold i2 info1 info2 e h1 h2 g2 he, if_pos hrot]
  have harg :
      ((p1.x - p2.x) -
          ((info1.centerX - info2.centerX) * Real.cos p2.rotation -
            (info1.centerY - info2.centerY) * Real.sin p2.rotation)) *
        ((p1.x - p2.x) -
          ((info1.centerX - info2.centerX) * Real.cos p2.rotation -
            (info1.centerY - info2.centerY) * Real.sin p2.rotation)) +
      ((p1.y - p2.y) -
          ((info1.centerX - info2.centerX) * Real.sin p2.rotation +
            (info1.centerY - info2.centerY) * Real.cos p2.rotation)) *
        ((p1.y - p2.y) -
          ((info1.centerX - info2.centerX) * Real.sin p2.rotation +
            (info1.centerY - info2.centerY) * Real.cos p2.rotation)) =
      ((p1.x - p2.x) -
          ((info1.centerX - info2.centerX) * Real.cos p2.rotation -
            (info1.centerY - info2.centerY) * Real.sin p2.rotation)) ^ 2 +
      ((p1.y - p2.y) -
          ((info1.centerX - info2.centerX) * Real.sin p2.rotation +
            (info1.centerY - info2.centerY) * Real.cos p2.rotation)) ^ 2 := by
    ring
  rw [harg]

/-- Moving piece of the C4 witness, posed at the assembled center of the
left piece. -/
def wMoving : SnapPiece := { x := -25, y := 0, rotation := 0, index := some 0 }

/-- Neighbor piece of the C4 witness, posed at the assembled center of the
right piece. -/
def wNeighbor : SnapPiece := { x := 25, y := 0, rotation := 0, index := some 1 }

/-- Witness for C4 on the concrete 2 by 1 layout with both pieces at rest. -/
theorem C4_distance_and_target_witness :
    checkSnapPossibility wMoving wNeighbor cexInfos 5 =
      (let rdx := (cexInfo0.centerX - cexInfo1.centerX) * Real.cos wNeighbor.rotation -
        (cexInfo0.centerY - cexInfo1.centerY) * Real.sin wNeighbor.rotation
      let rdy := (cexInfo0.centerX - cexInfo1.centerX) * Real.sin wNeighbor.rotation +
        (cexInfo0.centerY - cexInfo1.centerY) * Real.cos wNeighbor.rotation
      let d := Real.sqrt (((wMoving.x - wNeighbor.x) - rdx) ^ 2 +
        ((wMoving.y - wNeighbor.y) - rdy) ^ 2)
      if d ≤ 5 then
        some { canSnap := true, distance := (d : WithTop ℝ), edge := SnapEdge.right,
               target := some (wNeighbor.x + rdx, wNeighbor.y + rdy, wNeighbor.rotation) }
      else
        some { canSnap := false, distance := (d : WithTop ℝ), edge := SnapEdge.right,
               target := none }) :=
  C4_distance_and_target cexInfos wMoving wNeighbor 5 1 cexInfo0 cexInfo1 .right
    rfl rfl rfl rfl
    (by
      left
      have h0 : |wMoving.rotation - wNeighbor.rotation| = (0 : ℝ) := by
        simp [wMoving, wNeighbor]
      rw [h0, jsFmod_self_of_lt 0 (2 * Real.pi) le_rfl (by positivity)]
      norm_num)

/-- Unfolding of cellList over one more row: the new row is appended after
the previous rows. -/
lemma cellList_succ (gX n : ℕ) :
    cellList gX (n + 1) = cellList gX n ++ (List.range gX).map (fun c => (n, c)) := by
  rw [cellList, cellList, List.range_succ, List.flatMap_append]
  simp

/-- Length of the emitted cell sequence. -/
lemma cellList_length (gX gY : ℕ) : (cellList gX gY).length = gY * gX := by
  induction gY with
  | zero => simp [cellList]
  | succ n ih =>
      rw [cellList_succ, List.length_append, ih, List.length_map, List.length_range]
      ring

/-- The k-th emitted cell is row k / gridX, column k as modulus gridX: the
loops emit cells in row-major order. -/
lemma cellList_getElem? (gX gY k : ℕ) (h : k < gY * gX) :
    (cellList gX gY)[k]? = some (k / gX, k % gX) := by
  induction gY with
  | zero => exact absurd h (by simp)
  | succ n ih =>
      rw [cellList_succ, List.getElem?_append]
      rcases lt_or_le k (n * gX) with hk | hk
      · rw [if_pos (by rw [cellList_length]; exact hk)]
        exact ih hk
      · have hkup : k < n * gX + gX := by
          have hs : (n + 1) * gX = n * gX + gX := by ring
          rw [hs] at h
          exact h
        rw [if_neg (by rw [cellList_length]; omega), cellList_length]
        have hlt : k - n * gX < gX := by omega
        rw [List.getElem?_map, List.getElem?_range hlt]
        have hdiv : k / gX = n := Nat.div_eq_of_lt_le hk h
        have hmod : k % gX = k - n * gX := by
          have h1 : k = (k - n * gX) + n * gX := by omega
          rw [h1, Nat.add_mul_mod_self_right, Nat.mod_eq_of_lt hlt]
          omega
        rw [hdiv, hmod]
        rfl

/-- Length of the generateAllPieces output. -/
lemma generateAllPieces_length (p : PuzzleParams) :
    (generateAllPieces p).length = p.gridY * p.gridX := by
  rw [generateAllPieces, List.length_map, List.enum_length, cellList_length]

/-- The k-th generated piece, written out. -/
lemma generateAllPieces_getElem? (p : PuzzleParams) (k : ℕ) (h : k < p.gridY * p.gridX) :
    (generateAllPieces p)[k]? = some
      { col := k % p.gridX, row := k / p.gridX, index := k
        centerX := centerX p (k % p.gridX), centerY := centerY p (k / p.gridX)
        neighbors := pieceNeighbors p.gridX p.gridY (k / p.gridX) (k % p.gridX) } := by
  rw [generateAllPieces, List.getElem?_map, List.getElem?_enum, cellList_getElem? _ _ _ h]
  rfl

/-- Inversion: any entry of generateAllPieces determines its fields from its
position. -/
lemma generateAllPieces_elem (p : PuzzleParams) (i : ℕ) (pa : PieceInfo)
    (h : (generateAllPieces p)[i]? = some pa) :
    pa.row < p.gridY ∧ pa.col < p.gridX ∧ i = pa.row * p.gridX + pa.col ∧ pa.index = i ∧
    pa.neighbors = pieceNeighbors p.gridX p.gridY pa.row pa.col := by
  have hlen : i < (generateAllPieces p).length := by
    by_contra hcon
    push_neg at hcon
    rw [List.getElem?_eq_none hcon] at h
    exact Option.noConfusion h
  rw [generateAllPieces_length] at hlen
  have hgx : 0 < p.gridX := by
    rcases Nat.eq_zero_or_pos p.gridX with h0 | h0
    · rw [h0, mul_zero] at hlen
      exact absurd hlen (Nat.not_lt_zero i)
    · exact h0
  have hval := generateAllPieces_getElem? p i hlen
  rw [hval] at h
  have hpa := (Option.some.inj h).symm
  have hrow : pa.row = i / p.gridX := by rw [hpa]
  have hcol : pa.col = i % p.gridX := by rw [hpa]
  refine ⟨?_, ?_, ?_, by rw [hpa], by rw [hpa]⟩
  · rw [hrow]
    exact (Nat.div_lt_iff_lt_mul hgx).mpr hlen
  · rw [hcol]
    exact Nat.mod_lt i hgx
  · rw [hrow, hcol, mul_comm]
    exact (Nat.div_add_mod i p.gridX).symm

/-- A natural number cast to an integer never equals the -1 sentinel. -/
lemma neg_one_ne_natCast (n : ℕ) : ¬ ((-1 : ℤ) = (n : ℤ)) := by omega

/-- A natural number cast to an integer never equals the -1 sentinel,
flipped. -/
lemma natCast_ne_neg_one (n : ℕ) : ¬ (((n : ℤ)) = -1) := by omega

/-- Uniqueness of the row-major decomposition index = row * gridX + col. -/
lemma grid_index_inj {gX a b x y : ℕ} (hgx : 0 < gX) (hx : x < gX) (hy : y < gX)
    (h : a * gX + x = b * gX + y) : a = b ∧ x = y := by
  have ha : (a * gX + x) / gX = a := by
    rw [mul_comm, Nat.mul_add_div hgx, Nat.div_eq_of_lt hx, add_zero]
  have hb : (b * gX + y) / gX = b := by
    rw [mul_comm, Nat.mul_add_div hgx, Nat.div_eq_of_lt hy, add_zero]
  have hab : a = b := by rw [← ha, ← hb, h]
  refine ⟨hab, ?_⟩
  subst hab
  exact Nat.add_left_cancel h

/-- C5: the neighbor structure of generateAllPieces is symmetric, border
sides carry the -1 sentinel, every index equals row * gridX + col, and the
pieces are emitted in row-major order with the counter equal to the
position. -/
theorem C5_grid_adjacency (p : PuzzleParams) (hx : 1 ≤ p.gridX) (hy : 1 ≤ p.gridY) :
    (generateAllPieces p).length = p.gridX * p.gridY ∧
    (∀ k, k < p.gridX * p.gridY →
      ∃ pc : PieceInfo, (generateAllPieces p)[k]? = some pc ∧
        pc.row = k / p.gridX ∧ pc.col = k % p.gridX ∧
        pc.index = pc.row * p.gridX + pc.col ∧ pc.index = k) ∧
    (∀ i j : ℕ, ∀ pa pb : PieceInfo,
      (generateAllPieces p)[i]? = some pa → (generateAllPieces p)[j]? = some pb →
      ((pa.neighbors.right = (j : ℤ) ↔ pb.neighbors.left = (i : ℤ)) ∧
       (pa.neighbors.top = (j : ℤ) ↔ pb.neighbors.bottom = (i : ℤ)))) ∧
    (∀ i : ℕ, ∀ pa : PieceInfo, (generateAllPieces p)[i]? = some pa →
      ((pa.neighbors.left = -1 ↔ pa.col = 0) ∧
       (pa.neighbors.right = -1 ↔ pa.col = p.gridX - 1) ∧
       (pa.neighbors.bottom = -1 ↔ pa.row = 0) ∧
       (pa.neighbors.top = -1 ↔ pa.row = p.gridY - 1))) := by
  have hgx : 0 < p.gridX := hx
  refine ⟨by rw [generateAllPieces_length]; ring, ?_, ?_, ?_⟩
  · intro k hk
    have hk2 : k < p.gridY * p.gridX := by
      rw [mul_comm p.gridX p.gridY] at hk
      exact hk
    refine ⟨_, generateAllPieces_getElem? p k hk2, rfl, rfl, ?_, rfl⟩
    show k = k / p.gridX * p.gridX + k % p.gridX
    rw [mul_comm]
    exact (Nat.div_add_mod k p.gridX).symm
  · intro i j pa pb hia hib
    obtain ⟨hra, hca, hieq, -, hnba⟩ := generateAllPieces_elem p i pa hia
    obtain ⟨hrb, hcb, hjeq, -, hnbb⟩ := generateAllPieces_elem p j pb hib
    rw [hnba, hnbb, hieq, hjeq]
    simp only [pieceNeighbors]
    constructor
    · by_cases h1 : pa.col < p.gridX - 1
      · rw [if_pos h1]
        by_cases h2 : 0 < pb.col
        · rw [if_pos h2, Nat.cast_inj, Nat.cast_inj]
          constructor
          · intro hcc
            obtain ⟨hre, hce⟩ := grid_index_inj hgx (by omega) hcb hcc
            have hcb1 : pb.col = pa.col + 1 := hce.symm
            rw [← hre, hcb1]
            omega
          · intro hcc
            obtain ⟨hre, hce⟩ := grid_index_inj hgx (by omega) hca hcc
            rw [hre]
            omega
        · rw [if_neg h2]
          constructor
          · intro hcc
            rw [Nat.cast_inj] at hcc
            obtain ⟨-, hce⟩ := grid_index_inj hgx (by omega) hcb hcc
            omega
          · intro hcc
            exact absurd hcc (neg_one_ne_natCast _)
      · rw [if_neg h1]
        by_cases h2 : 0 < pb.col
        · rw [if_pos h2]
          constructor
          · intro hcc
            exact absurd hcc (neg_one_ne_natCast _)
          · intro hcc
            rw [Nat.cast_inj] at hcc
            obtain ⟨hre, hce⟩ := grid_index_inj hgx (by omega) hca hcc
            omega
        · rw [if_neg h2]
          constructor <;> intro hcc <;> exact absurd hcc (neg_one_ne_natCast _)
    · by_cases h1 : pa.row < p.gridY - 1
      · rw [if_pos h1]
        by_cases h2 : 0 < pb.row
        · rw [if_pos h2, Nat.cast_inj, Nat.cast_inj]
          constructor
          · intro hcc
            obtain ⟨hre, hce⟩ := grid_index_inj hgx hca hcb hcc
            rw [← hce]
            have hr2 : pb.row - 1 = pa.row := by omega
            rw [hr2]
          · intro hcc
            obtain ⟨hre, hce⟩ := grid_index_inj hgx hcb hca hcc
            have hr2 : pb.row = pa.row + 1 := by omega
            rw [hr2, hce]
        · rw [if_neg h2]
          constructor
          · intro hcc
            rw [Nat.cast_inj] at hcc
            obtain ⟨hre, -⟩ := grid_index_inj hgx hca hcb hcc
            omega
          · intro hcc
            exact absurd hcc (neg_one_ne_natCast _)
      · rw [if_neg h1]
        by_cases h2 : 0 < pb.row
        · rw [if_pos h2]
          constructor
          · intro hcc
            exact absurd hcc (neg_one_ne_natCast _)
          · intro hcc
            rw [Nat.cast_inj] at hcc
            obtain ⟨hre, -⟩ := grid_index_inj hgx hcb hca hcc
            omega
        · rw [if_neg h2]
          constructor <;> intro hcc <;> exact absurd hcc (neg_one_ne_natCast _)
  · intro i pa hia
    obtain ⟨hra, hca, hieq, -, hnba⟩ := generateAllPieces_elem p i pa hia
    rw [hnba]
    simp only [pieceNeighbors]
    refine ⟨?_, ?_, ?_, ?_⟩
    · by_cases h : 0 < pa.col
      · rw [if_pos h]
        constructor
        · intro hcc
          exact absurd hcc (natCast_ne_neg_one _)
        · intro hcc
          omega
      · rw [if_neg h]
        constructor
        · intro hcc
          omega
        · intro hcc
          rfl
    · by_cases h : pa.col < p.gridX - 1
      · rw [if_pos h]
        constructor
        · intro hcc
          exact absurd hcc (natCast_ne_neg_one _)
        · intro hcc
          omega
      · rw [if_neg h]
        constructor
        · intro hcc
          omega
        · intro hcc
          rfl
    · by_cases h : 0 < pa.row
      · rw [if_pos h]
        constructor
        · intro hcc
          exact absurd hcc (natCast_ne_neg_one _)
        · intro hcc
          omega
      · rw [if_neg h]
        constructor
        · intro hcc
          omega
        · intro hcc
          rfl
    · by_cases h : pa.row < p.gridY - 1
      · rw [if_pos h]
        constructor
        · intro hcc
          exact absurd hcc (natCast_ne_neg_one _)
        · intro hcc
          omega
      · rw [if_neg h]
        constructor
        · intro hcc
          omega
        · intro hcc
          rfl

/-- Witness for C5 on the 2 by 2 demo parameters. -/
theorem C5_grid_adjacency_witness :
    1 ≤ demoParams.gridX ∧ 1 ≤ demoParams.gridY ∧
    (generateAllPieces demoParams).length = demoParams.gridX * demoParams.gridY :=
  ⟨by norm_num [demoParams], by norm_num [demoParams],
   (C5_grid_adjacency demoParams (by norm_num [demoParams]) (by norm_num [demoParams])).1⟩

/-- Straight mode has zero offset everywhere. -/
lemma splitOffset_straight (t a : ℝ) : splitOffset t .straight a = 0 := rfl

/-- Element formula for a sampled horizontal edge at the default resolution. -/
lemma horizontalEdge_getElem? (xS xE Y : ℝ) (m : SplitMode) (a : ℝ) (i : ℕ) (hi : i < 31) :
    (generateHorizontalEdge xS xE Y m a 30)[i]? =
      some (xS + (xE - xS) * ((i : ℝ) / 30), Y + splitOffset ((i : ℝ) / 30) m a) := by
  rw [generateHorizontalEdge, List.getElem?_map, List.getElem?_range hi]
  norm_num

/-- Element formula for a sampled vertical edge at the default resolution. -/
lemma verticalEdge_getElem? (X yS yE : ℝ) (m : SplitMode) (a : ℝ) (i : ℕ) (hi : i < 31) :
    (generateVerticalEdge X yS yE m a 30)[i]? =
      some (X + splitOffset ((i : ℝ) / 30) m a, yS + (yE - yS) * ((i : ℝ) / 30)) := by
  rw [generateVerticalEdge, List.getElem?_map, List.getElem?_range hi]
  norm_num

/-- The left boundary of the next column is the right boundary of this one. -/
lemma xLeft_succ (p : PuzzleParams) (col : ℕ) : xLeft p (col + 1) = xRight p col := by
  rw [xLeft, xRight, xLeft]
  push_cast
  ring

/-- The top boundary of the previous row is the bottom boundary of this one. -/
lemma yTop_pred (p : PuzzleParams) (row : ℕ) (h : 1 ≤ row) : yTop p (row - 1) = yBottom p row := by
  rw [yTop, yBottom, yBottom, Nat.cast_sub h]
  push_cast
  ring

/-- If the offset function is even under parameter reversal, the bottom edge
of a piece equals the reversed top edge generated by the piece below the same
boundary. -/
lemma horizontalEdge_reversal (p : PuzzleParams) (col row : ℕ) (hrow : 1 ≤ row)
    (hsym : ∀ t : ℝ, 0 ≤ t → t ≤ 1 →
      splitOffset (1 - t) p.splitMode (amplitude p) = splitOffset t p.splitMode (amplitude p)) :
    bottomEdgePts p col row = (topEdgePts p col (row - 1)).reverse := by
  have hlenT : (topEdgePts p col (row - 1)).length = 31 := by
    simp [topEdgePts, generateHorizontalEdge]
  apply List.ext_getElem?
  intro i
  by_cases hi : i < 31
  · rw [List.getElem?_reverse (by rw [hlenT]; exact hi), hlenT]
    have h30 : 31 - 1 - i = 30 - i := by omega
    rw [h30, bottomEdgePts, topEdgePts]
    rw [horizontalEdge_getElem? _ _ _ _ _ i hi,
        horizontalEdge_getElem? _ _ _ _ _ (30 - i) (by omega)]
    have hcast : ((30 - i : ℕ) : ℝ) = 30 - (i : ℝ) := by
      rw [Nat.cast_sub (by omega : i ≤ 30)]
      norm_num
    have harg : (30 - (i : ℝ)) / 30 = 1 - (i : ℝ) / 30 := by ring
    have ht0 : (0 : ℝ) ≤ (i : ℝ) / 30 := by positivity
    have ht1 : (i : ℝ) / 30 ≤ 1 := by
      rw [div_le_one (by norm_num)]
      exact_mod_cast Nat.lt_succ_iff.mp hi
    rw [hcast, harg, hsym _ ht0 ht1, yTop_pred p row hrow]
    rw [Option.some.injEq, Prod.mk.injEq]
    constructor
    · ring
    · rfl
  · have hbot : (bottomEdgePts p col row).length = 31 := by
      simp [bottomEdgePts, generateHorizontalEdge]
    rw [List.getElem?_eq_none (by rw [hbot]; omega),
        List.getElem?_eq_none (by rw [List.length_reverse, hlenT]; omega)]

/-- If the offset function is even under parameter reversal, the left edge of
the next column equals the reversed right edge generated by this column along
the same boundary. -/
lemma verticalEdge_reversal (p : PuzzleParams) (col row : ℕ)
    (hsym : ∀ t : ℝ, 0 ≤ t → t ≤ 1 →
      splitOffset (1 - t) p.splitMode (amplitude p) = splitOffset t p.splitMode (amplitude p)) :
    leftEdgePts p (col + 1) row = (rightEdgePts p col row).reverse := by
  have hlenR : (rightEdgePts p col row).length = 31 := by
    simp [rightEdgePts, generateVerticalEdge]
  apply List.ext_getElem?
  intro i
  by_cases hi : i < 31
  · rw [List.getElem?_reverse (by rw [hlenR]; exact hi), hlenR]
    have h30 : 31 - 1 - i = 30 - i := by omega
    rw [h30, leftEdgePts, rightEdgePts]
    rw [verticalEdge_getElem? _ _ _ _ _ i hi,
        verticalEdge_getElem? _ _ _ _ _ (30 - i) (by omega)]
    have hcast : ((30 - i : ℕ) : ℝ) = 30 - (i : ℝ) := by
      rw [Nat.cast_sub (by omega : i ≤ 30)]
      norm_num
    have harg : (30 - (i : ℝ)) / 30 = 1 - (i : ℝ) / 30 := by ring
    have ht0 : (0 : ℝ) ≤ (i : ℝ) / 30 := by positivity
    have ht1 : (i : ℝ) / 30 ≤ 1 := by
      rw [div_le_one (by norm_num)]
      exact_mod_cast Nat.lt_succ_iff.mp hi
    rw [hcast, harg, hsym _ ht0 ht1, xLeft_succ p col]
    rw [Option.some.injEq, Prod.mk.injEq]
    constructor
    · rfl
    · ring
  · have hleft : (leftEdgePts p (col + 1) row).length = 31 := by
      simp [leftEdgePts, generateVerticalEdge]
    rw [List.getElem?_eq_none (by rw [hleft]; omega),
        List.getElem?_eq_none (by rw [List.length_reverse, hlenR]; omega)]

/-- C6: for the straight cut style, the 31-point sequence generated for a
piece along an interior horizontal boundary equals the sequence its neighbor
generates along the same boundary after reversal, and likewise for vertical
boundaries: the assembled pieces meet point for point with zero gap. -/
theorem C6_straight_edges (p : PuzzleParams) (hmode : p.splitMode = .straight) :
    (∀ col row : ℕ, 1 ≤ row →
      (bottomEdgePts p col row).length = 31 ∧
      bottomEdgePts p col row = (topEdgePts p col (row - 1)).reverse) ∧
    (∀ col row : ℕ, leftEdgePts p (col + 1) row = (rightEdgePts p col row).reverse) := by
  have hsym : ∀ t : ℝ, 0 ≤ t → t ≤ 1 →
      splitOffset (1 - t) p.splitMode (amplitude p) = splitOffset t p.splitMode (amplitude p) := by
    intro t h0 h1
    rw [hmode, splitOffset_straight, splitOffset_straight]
  constructor
  · intro col row h1
    refine ⟨by simp [bottomEdgePts, generateHorizontalEdge], ?_⟩
    exact horizontalEdge_reversal p col row h1 hsym
  · intro col row
    exact verticalEdge_reversal p col row hsym

/-- Witness for C6 on the 2 by 2 straight demo parameters, at the interior
horizontal boundary below piece (0, 1) and the vertical boundary right of
piece (0, 0). -/
theorem C6_straight_edges_witness :
    demoParams.splitMode = SplitMode.straight ∧
    (1 : ℕ) ≤ 1 ∧
    (bottomEdgePts demoParams 0 1).length = 31 ∧
    bottomEdgePts demoParams 0 1 = (topEdgePts demoParams 0 (1 - 1)).reverse ∧
    leftEdgePts demoParams (0 + 1) 0 = (rightEdgePts demoParams 0 0).reverse :=
  ⟨rfl, le_rfl,
   ((C6_straight_edges demoParams rfl).1 0 1 le_rfl).1,
   ((C6_straight_edges demoParams rfl).1 0 1 le_rfl).2,
   (C6_straight_edges demoParams rfl).2 0 0⟩

/-- The zigzag offset is even under parameter reversal on the unit interval:
both directions of traversal sample the same triangular wave. -/
lemma zig_reversal (t a : ℝ) (h0 : 0 ≤ t) (h1 : t ≤ 1) :
    splitOffset (1 - t) .zigzag a = splitOffset t .zigzag a := by
  simp only [splitOffset]
  rw [jsFmod_one (t * 8) (by linarith), jsFmod_one ((1 - t) * 8) (by nlinarith)]
  have hshift : Int.fract ((1 - t) * 8) = Int.fract (-(t * 8)) := by
    have harg : (1 - t) * 8 = ((8 : ℤ) : ℝ) + -(t * 8) := by push_cast; ring
    rw [harg, Int.fract_int_add]
  rw [hshift]
  by_cases hz : Int.fract (t * 8) = 0
  · rw [Int.fract_neg_eq_zero.mpr hz, hz]
  · rw [Int.fract_neg hz]
    have hz0 : 0 < Int.fract (t * 8) :=
      lt_of_le_of_ne (Int.fract_nonneg _) (Ne.symm hz)
    have hz1 : Int.fract (t * 8) < 1 := Int.fract_lt_one _
    set z := Int.fract (t * 8) with hzdef
    by_cases hA : 1 - z < 0.5
    · rw [if_pos hA, if_neg (not_lt.mpr (by linarith))]
    · rw [if_neg hA]
      by_cases hB : z < 0.5
      · rw [if_pos hB]
        ring
      · rw [if_neg hB]
        have hz5 : z = 0.5 := le_antisymm (by linarith) (not_lt.mp hB)
        rw [hz5]
        norm_num

/-- The wave offset is odd under parameter reversal: opposite traversal
directions sample negated offsets. -/
lemma wave_reversal (t a : ℝ) :
    splitOffset (1 - t) .wave a = -(splitOffset t .wave a) := by
  simp only [splitOffset]
  have hs : Real.sin (4 * Real.pi) = 0 := by
    rw [show (4 : ℝ) * Real.pi = 2 * (2 * Real.pi) by ring, Real.sin_two_mul, Real.sin_two_pi]
    ring
  have hc : Real.cos (4 * Real.pi) = 1 := by
    rw [show (4 : ℝ) * Real.pi = 2 * (2 * Real.pi) by ring, Real.cos_two_mul, Real.cos_two_pi]
    norm_num
  rw [show (1 - t) * Real.pi * 4 = 4 * Real.pi - t * Real.pi * 4 by ring, Real.sin_sub, hs, hc]
  ring

/-- C7: splitOffset is even in t under reversal for zigzag and odd for wave;
consequently two adjacent pieces sampling a shared interior boundary in
opposite directions obtain identical sequences for zigzag, while for wave the
reversed neighbor sequence carries the negated offset and matches only where
the offset vanishes. -/
theorem C7_reversal_symmetry (t a : ℝ) (ht0 : 0 ≤ t) (ht1 : t ≤ 1) :
    splitOffset (1 - t) .zigzag a = splitOffset t .zigzag a ∧
    splitOffset (1 - t) .wave a = -(splitOffset t .wave a) ∧
    (∀ p : PuzzleParams, p.splitMode = .zigzag → ∀ col row : ℕ, 1 ≤ row →
      bottomEdgePts p col row = (topEdgePts p col (row - 1)).reverse) ∧
    (∀ p : PuzzleParams, p.splitMode = .zigzag → ∀ col row : ℕ,
      leftEdgePts p (col + 1) row = (rightEdgePts p col row).reverse) ∧
    (∀ p : PuzzleParams, p.splitMode = .wave → ∀ col row : ℕ, 1 ≤ row → ∀ i : ℕ, i < 31 →
      ∃ q : ℝ × ℝ, (bottomEdgePts p col row)[i]? = some q ∧
        ((topEdgePts p col (row - 1)).reverse)[i]? = some (q.1, 2 * yBottom p row - q.2) ∧
        (((topEdgePts p col (row - 1)).reverse)[i]? = (bottomEdgePts p col row)[i]? ↔
          splitOffset ((i : ℝ) / 30) .wave (amplitude p) = 0)) := by
  refine ⟨zig_reversal t a ht0 ht1, wave_reversal t a, ?_, ?_, ?_⟩
  · intro p hm col row hrow
    exact horizontalEdge_reversal p col row hrow
      (fun s h0 h1 => by rw [hm]; exact zig_reversal s _ h0 h1)
  · intro p hm col row
    exact verticalEdge_reversal p col row
      (fun s h0 h1 => by rw [hm]; exact zig_reversal s _ h0 h1)
  · intro p hm col row hrow i hi
    have hlenT : (topEdgePts p col (row - 1)).length = 31 := by
      simp [topEdgePts, generateHorizontalEdge]
    have hbotElem : (bottomEdgePts p col row)[i]? =
        some (xLeft p col + (xRight p col - xLeft p col) * ((i : ℝ) / 30),
          yBottom p row + splitOffset ((i : ℝ) / 30) .wave (amplitude p)) := by
      rw [bottomEdgePts, hm]
      exact horizontalEdge_getElem? _ _ _ _ _ i hi
    have hrevElem : ((topEdgePts p col (row - 1)).reverse)[i]? =
        some (xLeft p col + (xRight p col - xLeft p col) * ((i : ℝ) / 30),
          yBottom p row - splitOffset ((i : ℝ) / 30) .wave (amplitude p)) := by
      rw [List.getElem?_reverse (by rw [hlenT]; exact hi), hlenT]
      have h30 : 31 - 1 - i = 30 - i := by omega
      rw [h30, topEdgePts, hm, horizontalEdge_getElem? _ _ _ _ _ (30 - i) (by omega)]
      have hcast : ((30 - i : ℕ) : ℝ) = 30 - (i : ℝ) := by
        rw [Nat.cast_sub (by omega : i ≤ 30)]
        norm_num
      have harg : (30 - (i : ℝ)) / 30 = 1 - (i : ℝ) / 30 := by ring
      rw [hcast, harg, wave_reversal ((i : ℝ) / 30) (amplitude p), yTop_pred p row hrow]
      rw [Option.some.injEq, Prod.mk.injEq]
      constructor
      · ring
      · ring
    refine ⟨_, hbotElem, ?_, ?_⟩
    · rw [hrevElem, Option.some.injEq, Prod.mk.injEq]
      exact ⟨rfl, by ring⟩
    · rw [hbotElem, hrevElem]
      constructor
      · intro heq
        rw [Option.some.injEq, Prod.mk.injEq] at heq
        have hy := heq.2
        linarith
      · intro hzero
        rw [hzero]
        norm_num

/-- Witness for C7 at t = 1/2, amplitude 1. -/
theorem C7_reversal_symmetry_witness :
    (0 : ℝ) ≤ 1 / 2 ∧ (1 / 2 : ℝ) ≤ 1 ∧
    splitOffset (1 - 1 / 2) .zigzag 1 = splitOffset (1 / 2) .zigzag 1 ∧
    splitOffset (1 - 1 / 2) .wave 1 = -(splitOffset (1 / 2) .wave 1) :=
  ⟨by norm_num, by norm_num,
   (C7_reversal_symmetry (1 / 2) 1 (by norm_num) (by norm_num)).1,
   (C7_reversal_symmetry (1 / 2) 1 (by norm_num) (by norm_num)).2.1⟩

/-- C10: for every outcome of the random draws, scatter gives every piece a
position at some angle and a radius within [0.5, 1.0] times 1.5 times the
larger side, a rotation in [0, 2 pi), z at half depth, and clears the active
selection. -/
theorem C10_scatter (piecesInfo : List PieceInfo) (p : PuzzleParams)
    (rand : ℕ → ℝ × ℝ × ℝ) (st : GameState)
    (hne : piecesInfo ≠ [])
    (hw : 0 < p.width) (hh : 0 < p.height)
    (hrand : ∀ i : ℕ, 0 ≤ (rand i).1 ∧ (rand i).1 < 1 ∧ 0 ≤ (rand i).2.1 ∧
      (rand i).2.1 < 1 ∧ 0 ≤ (rand i).2.2 ∧ (rand i).2.2 < 1) :
    (handleScatter piecesInfo p rand st).selectedPieceIndex = -1 ∧
    (handleScatter piecesInfo p rand st).puzzleScattered = true ∧
    (handleScatter piecesInfo p rand st).pieceTransforms.length = piecesInfo.length ∧
    (∀ k : ℕ, ∀ tr : PieceTransform,
      (handleScatter piecesInfo p rand st).pieceTransforms[k]? = some tr →
      (∃ θ r : ℝ, tr.x = Real.cos θ * r ∧ tr.y = Real.sin θ * r ∧
        0.5 * (1.5 * max p.width p.height) ≤ r ∧
        r ≤ 1.0 * (1.5 * max p.width p.height)) ∧
      tr.z = p.depth / 2 ∧ 0 ≤ tr.rotation ∧ tr.rotation < 2 * Real.pi) := by
  have hlen0 : ¬ piecesInfo.length = 0 := by
    simpa using hne
  have hM : (0 : ℝ) < max p.width p.height := lt_of_lt_of_le hw (le_max_left _ _)
  simp only [handleScatter]
  rw [if_neg hlen0]
  refine ⟨rfl, rfl, by simp, ?_⟩
  intro k tr h
  simp only [List.getElem?_map, List.getElem?_enum] at h
  cases hpk : piecesInfo[k]? with
  | none =>
      rw [hpk] at h
      simp at h
  | some pc =>
      rw [hpk] at h
      simp only [Option.map_some'] at h
      obtain rfl : tr = _ := (Option.some.inj h).symm
      obtain ⟨h1, h2, h3, h4, h5, h6⟩ := hrand k
      refine ⟨⟨((k : ℝ) / (piecesInfo.length : ℝ)) * Real.pi * 2 + (rand k).1 * 0.5,
        max p.width p.height * 1.5 * (0.5 + (rand k).2.1 * 0.5), rfl, rfl, ?_, ?_⟩,
        rfl, ?_, ?_⟩
      · nlinarith [mul_nonneg hM.le h3]
      · nlinarith [mul_nonneg hM.le h3, mul_nonneg hM.le (by linarith : (0 : ℝ) ≤ 1 - (rand k).2.1)]
      · exact mul_nonneg (mul_nonneg h5 Real.pi_pos.le) (by norm_num)
      · nlinarith [Real.pi_pos, mul_pos Real.pi_pos (by linarith : (0 : ℝ) < 1 - (rand k).2.2)]

/-- Witness for C10 on the two-piece layout with all draws 0. -/
theorem C10_scatter_witness :
    cexInfos ≠ [] ∧
    (handleScatter cexInfos demoParams (fun _ => (0, 0, 0))
        { pieceTransforms := [], puzzleScattered := false,
          selectedPieceIndex := 5 }).selectedPieceIndex = -1 :=
  ⟨by simp [cexInfos],
   (C10_scatter cexInfos demoParams (fun _ => (0, 0, 0))
      { pieceTransforms := [], puzzleScattered := false, selectedPieceIndex := 5 }
      (by simp [cexInfos]) (by norm_num [demoParams]) (by norm_num [demoParams])
      (fun i => by norm_num)).1⟩

/-- Explicit sample positions 0..30. -/
lemma range31 : List.range 31 = [0, 1, 2, 3, 4, 5, 6, 7, 8, 9, 10, 11, 12, 13, 14, 15, 16,
    17, 18, 19, 20, 21, 22, 23, 24, 25, 26, 27, 28, 29, 30] := rfl

/-- The outline ring of piece (0, 0) of the 2 by 1 straight layout, written
out: two bottom corners, the thirty sampled points of the interior right
edge, and the top-left corner. -/
def Lstraight : List (ℝ × ℝ) :=
  [(((-50) : ℝ), ((-50) : ℝ)), ((0 : ℝ), ((-50) : ℝ)), ((0 : ℝ), ((-140/3) : ℝ)), ((0 : ℝ), ((-130/3) : ℝ)), ((0 : ℝ), ((-40) : ℝ)), ((0 : ℝ), ((-110/3) : ℝ)), ((0 : ℝ), ((-100/3) : ℝ)), ((0 : ℝ), ((-30) : ℝ)), ((0 : ℝ), ((-80/3) : ℝ)), ((0 : ℝ), ((-70/3) : ℝ)), ((0 : ℝ), ((-20) : ℝ)), ((0 : ℝ), ((-50/3) : ℝ)), ((0 : ℝ), ((-40/3) : ℝ)), ((0 : ℝ), ((-10) : ℝ)), ((0 : ℝ), ((-20/3) : ℝ)), ((0 : ℝ), ((-10/3) : ℝ)), ((0 : ℝ), (0 : ℝ)), ((0 : ℝ), (10/3 : ℝ)), ((0 : ℝ), (20/3 : ℝ)), ((0 : ℝ), (10 : ℝ)), ((0 : ℝ), (40/3 : ℝ)), ((0 : ℝ), (50/3 : ℝ)), ((0 : ℝ), (20 : ℝ)), ((0 : ℝ), (70/3 : ℝ)), ((0 : ℝ), (80/3 : ℝ)), ((0 : ℝ), (30 : ℝ)), ((0 : ℝ), (100/3 : ℝ)), ((0 : ℝ), (110/3 : ℝ)), ((0 : ℝ), (40 : ℝ)), ((0 : ℝ), (130/3 : ℝ)), ((0 : ℝ), (140/3 : ℝ)), ((0 : ℝ), (50 : ℝ)), (((-50) : ℝ), (50 : ℝ))]

set_option maxHeartbeats 2000000 in
/-- Evaluation of the straight outline of piece (0, 0). -/
lemma outlinePts_straight_eval : outlinePts straightParams 0 0 = Lstraight := by
  rw [outlinePts]
  norm_num [straightParams, Lstraight, rightEdgePts, generateVerticalEdge, range31,
    splitOffset_straight, xLeft, xRight, yBottom, yTop, pieceW, pieceH]

/-- The outline ring of piece (0, 0) of the 2 by 1 zigzag layout, written
out; the interior right edge carries the sampled triangular offsets of
amplitude 4. -/
def Lzig : List (ℝ × ℝ) :=
  [(((-50) : ℝ), ((-50) : ℝ)), ((0 : ℝ), ((-50) : ℝ)), ((2/15 : ℝ), ((-140/3) : ℝ)), ((26/15 : ℝ), ((-130/3) : ℝ)), (((-2/5) : ℝ), ((-40) : ℝ)), (((-22/15) : ℝ), ((-110/3) : ℝ)), ((2/3 : ℝ), ((-100/3) : ℝ)), ((6/5 : ℝ), ((-30) : ℝ)), (((-14/15) : ℝ), ((-80/3) : ℝ)), (((-14/15) : ℝ), ((-70/3) : ℝ)), ((6/5 : ℝ), ((-20) : ℝ)), ((2/3 : ℝ), ((-50/3) : ℝ)), (((-22/15) : ℝ), ((-40/3) : ℝ)), (((-2/5) : ℝ), ((-10) : ℝ)), ((26/15 : ℝ), ((-20/3) : ℝ)), ((2/15 : ℝ), ((-10/3) : ℝ)), (((-2) : ℝ), (0 : ℝ)), ((2/15 : ℝ), (10/3 : ℝ)), ((26/15 : ℝ), (20/3 : ℝ)), (((-2/5) : ℝ), (10 : ℝ)), (((-22/15) : ℝ), (40/3 : ℝ)), ((2/3 : ℝ), (50/3 : ℝ)), ((6/5 : ℝ), (20 : ℝ)), (((-14/15) : ℝ), (70/3 : ℝ)), (((-14/15) : ℝ), (80/3 : ℝ)), ((6/5 : ℝ), (30 : ℝ)), ((2/3 : ℝ), (100/3 : ℝ)), (((-22/15) : ℝ), (110/3 : ℝ)), (((-2/5) : ℝ), (40 : ℝ)), ((26/15 : ℝ), (130/3 : ℝ)), ((2/15 : ℝ), (140/3 : ℝ)), (((-2) : ℝ), (50 : ℝ)), (((-50) : ℝ), (50 : ℝ))]

set_option maxHeartbeats 4000000 in
/-- Evaluation of the zigzag outline of piece (0, 0). -/
lemma outlinePts_zig_eval : outlinePts zigParams 0 0 = Lzig := by
  have hamp : amplitude zigParams = 4 := by
    rw [amplitude, pieceW, pieceH]
    norm_num [zigParams, min_def]
  have hxL : xLeft zigParams 0 = -50 := by
    rw [xLeft, pieceW]
    norm_num [zigParams]
  have hxR : xRight zigParams 0 = 0 := by
    rw [xRight, xLeft, pieceW]
    norm_num [zigParams]
  have hyB : yBottom zigParams 0 = -50 := by
    rw [yBottom, pieceH]
    norm_num [zigParams]
  have hyT : yTop zigParams 0 = 50 := by
    rw [yTop, yBottom, pieceH]
    norm_num [zigParams]
  have hg1 : zigParams.gridX - 1 = 1 := rfl
  have hg2 : zigParams.gridY - 1 = 0 := rfl
  have hmode : zigParams.splitMode = SplitMode.zigzag := rfl
  rw [outlinePts]
  norm_num [Lzig, rightEdgePts, generateVerticalEdge, range31, hamp, hxL, hxR, hyB, hyT,
    hg1, hg2, hmode, splitOffset, jsFmod, -Int.self_sub_floor]

set_option maxHeartbeats 4000000 in
/-- Shoelace centroid of the straight outline: exactly the cell midpoint. -/
lemma specCentroid_Lstraight : specCentroid Lstraight = (-25, 0) := by
  norm_num [specCentroid, specCentroidNumX, specCentroidNumY, specShoelace,
    specCyclicPairs, Lstraight]

set_option maxHeartbeats 4000000 in
/-- Shoelace centroid of the zigzag outline: not the cell midpoint. -/
lemma specCentroid_Lzig :
    specCentroid Lzig = (-2811588 / 112555, -2200 / 67533) := by
  norm_num [specCentroid, specCentroidNumX, specCentroidNumY, specShoelace,
    specCyclicPairs, Lzig]

/-- C8 counterexample: for the zigzag 2 by 1 layout the centroid of the
outline polygon of piece (0, 0) differs from the recorded
(centerX, centerY) = (-25, 0), so the translated local ring does not have its
centroid at the origin. -/
theorem C8_centroid_counterexample :
    specCentroid (outlinePts zigParams 0 0) ≠
      ((createPieceShape zigParams 0 0).centerX, (createPieceShape zigParams 0 0).centerY) := by
  have hcX : (createPieceShape zigParams 0 0).centerX = -25 := by
    show centerX zigParams 0 = -25
    rw [centerX, xLeft, xRight, xLeft, pieceW]
    norm_num [zigParams]
  have hcY : (createPieceShape zigParams 0 0).centerY = 0 := by
    show centerY zigParams 0 = 0
    rw [centerY, yBottom, yTop, yBottom, pieceH]
    norm_num [zigParams]
  rw [outlinePts_zig_eval, specCentroid_Lzig, hcX, hcY]
  intro hcon
  have hfst := congrArg Prod.fst hcon
  norm_num at hfst

/-- C8 as amended: the recorded center is the midpoint of the piece's grid
cell and the local ring is the global outline translated by it; the outline
polygon's centroid coincides with the recorded center only in special cases,
such as the straight 2 by 1 instance, not in general. -/
theorem C8_center_is_cell_midpoint (p : PuzzleParams) (col row : ℕ) :
    (createPieceShape p col row).centerX = (xLeft p col + xRight p col) / 2 ∧
    (createPieceShape p col row).centerY = (yBottom p row + yTop p row) / 2 ∧
    (createPieceShape p col row).localPts = (outlinePts p col row).map
      (fun q => (q.1 - (createPieceShape p col row).centerX,
                 q.2 - (createPieceShape p col row).centerY)) ∧
    specCentroid (outlinePts straightParams 0 0) =
      ((createPieceShape straightParams 0 0).centerX,
       (createPieceShape straightParams 0 0).centerY) := by
  refine ⟨rfl, rfl, rfl, ?_⟩
  have hcX : (createPieceShape straightParams 0 0).centerX = -25 := by
    show centerX straightParams 0 = -25
    rw [centerX, xLeft, xRight, xLeft, pieceW]
    norm_num [straightParams]
  have hcY : (createPieceShape straightParams 0 0).centerY = 0 := by
    show centerY straightParams 0 = 0
    rw [centerY, yBottom, yTop, yBottom, pieceH]
    norm_num [straightParams]
  rw [outlinePts_straight_eval, specCentroid_Lstraight, hcX, hcY]
